import Mathlib

/-!
Shallow embedding of the paste lifecycle manager of quick-paste
(src/src/main.py): identifier generation, the in-memory index backed by a
snapshot, the per-id content store, and the create / read / list / delete
operations, together with proofs of the specification claims.

Modelling conventions:
- Timestamps are integers counting seconds; an hour is 3600 seconds
  (the source uses datetime / timedelta).
- The in-memory dict `pastes` is an insertion-ordered association list
  with string keys (Python dicts preserve insertion order).
- The content store (one file per id under DATA_DIR/pastes) is a function
  from id to an optional stored string.
- The source stores content with Path.write_text and reads it back with
  Path.read_text, both with default arguments.  On a POSIX host
  (os.linesep is a single newline) the write is the identity on the text,
  while the read applies universal-newline decoding: every CR LF pair and
  every lone CR becomes LF.  This translation is modelled by univNewline.
- The random source secrets.choice is modelled by an arbitrary candidate
  stream of ids together with an explicit fuel for the retry loop; the
  startup / rendering / HTTP glue that the spec excludes is abstracted
  (the Pygments renderer is a function parameter of get_paste_html).
-/

/-- Python str.strip() whitespace set: the characters stripped by
str.strip with no argument (ASCII whitespace, the C1 separators, and the
Unicode space characters). -/
def pyIsSpace (c : Char) : Bool :=
  decide ((0x09 ≤ c.val ∧ c.val ≤ 0x0d) ∨ (0x1c ≤ c.val ∧ c.val ≤ 0x1f) ∨
    c.val = 0x20 ∨ c.val = 0x85 ∨ c.val = 0xa0 ∨ c.val = 0x1680 ∨
    (0x2000 ≤ c.val ∧ c.val ≤ 0x200a) ∨ c.val = 0x2028 ∨ c.val = 0x2029 ∨
    c.val = 0x202f ∨ c.val = 0x205f ∨ c.val = 0x3000)

/-- Characters of a string after Python str.strip(): drop leading and
trailing whitespace. -/
def pyStripL (l : List Char) : List Char :=
  ((l.dropWhile pyIsSpace).reverse.dropWhile pyIsSpace).reverse

/-- Python str.strip() on a string. -/
def pyStrip (s : String) : String := ⟨pyStripL s.data⟩

/-- Universal-newline decoding on a character list, as performed by
Python text-mode reads with newline=None: CR LF becomes LF and a lone CR
becomes LF. -/
def univNewlineL : List Char → List Char
  | [] => []
  | [c] => if c = '\r' then ['\n'] else [c]
  | c :: d :: rest =>
    if c = '\r' then
      if d = '\n' then '\n' :: univNewlineL rest
      else '\n' :: univNewlineL (d :: rest)
    else c :: univNewlineL (d :: rest)

/-- Universal-newline decoding on a string. -/
def univNewline (s : String) : String := ⟨univNewlineL s.data⟩

/-- Request-scoped error taxonomy of the service (section 7 of the spec):
413 content too large, 400 empty content, 404 not found, and the
theoretical exhaustion of the id retry loop. -/
inductive Err where
  | tooLarge
  | emptyContent
  | notFound
  | genExhausted
deriving DecidableEq, Repr

/-- Metadata record stored in the index for one paste, mirroring the dict
built at lines 163-170 of main.py. -/
structure Meta where
  title : Option String
  language : Option String
  created_at : Int
  expires_at : Option Int
  burn_after_read : Bool
  size : Nat
deriving DecidableEq, Repr

/-- Request body of POST /api/paste (the pydantic model PasteCreate).
The expires_in_hours field records the value after pydantic defaulting:
an omitted field becomes DEFAULT_EXPIRY_HOURS, an explicit null stays
none. -/
structure PasteCreate where
  content : String
  language : Option String := none
  title : Option String := none
  expires_in_hours : Option Int := some 168
  burn_after_read : Bool := false

/-- Default expiry of one week, DEFAULT_EXPIRY_HOURS = 24 * 7. -/
def DEFAULT_EXPIRY_HOURS : Int := 24 * 7

/-- Default maximum content size, PASTE_MAX_SIZE = 500000.  The claims
are stated over an arbitrary configured maximum, since MAX_SIZE is read
from the environment. -/
def MAX_SIZE : Nat := 500000

/-- Association-list lookup with string keys: dict membership and
subscript access on the in-memory index. -/
def alookup {α : Type} : List (String × α) → String → Option α
  | [], _ => none
  | (k, v) :: rest, id => if k = id then some v else alookup rest id

/-- Deletion of a key from the association list: del pastes[id] (keys are
unique in a dict, so removing every pair with the key is the same
operation). -/
def adel {α : Type} : List (String × α) → String → List (String × α)
  | [], _ => []
  | (k, v) :: rest, id => if k = id then adel rest id else (k, v) :: adel rest id

/-- State owned by the paste service: the in-memory index (insertion
ordered) and the content store mapping each id to its stored text. -/
structure St where
  pastes : List (String × Meta)
  store : String → Option String

/-- Content store write: save_content writes the text of one file
(identity translation on write under a POSIX os.linesep). -/
def save_content (store : String → Option String) (id : String) (c : String) :
    String → Option String :=
  fun x => if x = id then some c else store x

/-- Content store delete: unlink with missing_ok=True. -/
def delete_content (store : String → Option String) (id : String) :
    String → Option String :=
  fun x => if x = id then none else store x

/-- load_content: read the file if it exists, applying the text-mode
universal-newline decoding, else None. -/
def load_content (store : String → Option String) (id : String) : Option String :=
  (store id).map univNewline

/-- Validation prefix of create_paste (lines 150-154): reject content
longer than MAX_SIZE (Python len, a character count), then reject content
whose strip() is empty. -/
def validate (maxSize : Nat) (content : String) : Option Err :=
  if content.length > maxSize then some .tooLarge
  else if pyStrip content = "" then some .emptyContent
  else none

/-- Expiry computation of create_paste (lines 159-161): expires_at is set
to now plus expires_in_hours hours exactly when the field is present and
positive (Python truthiness makes None and 0 skip the branch). -/
def computeExpiresAt (now : Int) (eh : Option Int) : Option Int :=
  match eh with
  | none => none
  | some v => if 0 < v then some (now + v * 3600) else none

/-- generate_id retry loop (lines 63-68): the candidate stream s stands
for the successive random draws; n is the position in the stream and fuel
bounds the number of retries (the source loop is unbounded; exhausted
fuel models the theoretical GenerationExhausted case). -/
def generate_id (pastes : List (String × Meta)) (s : Nat → String) :
    Nat → Nat → Option String
  | _, 0 => none
  | n, fuel + 1 =>
    if (alookup pastes (s n)).isSome then generate_id pastes s (n + 1) fuel
    else some (s n)

/-- Alphabet of generate_id: lowercase ASCII letters then digits. -/
def alphabet : List Char := "abcdefghijklmnopqrstuvwxyz0123456789".data

/-- All ids of a given length over the alphabet. -/
def allIds : Nat → List String
  | 0 => [""]
  | n + 1 => alphabet.flatMap fun c => (allIds n).map fun t => String.mk (c :: t.data)

/-- Observable effects of create_paste in source order, used to state the
ordering claim: the in-memory index insert (line 163), the content file
write (line 172), the snapshot rewrite (line 173). -/
inductive Effect where
  | indexInsert (id : String)
  | contentWrite (id : String)
  | snapshotSave
deriving DecidableEq, Repr

/-- Strict precedence of one effect over another in a trace. -/
def precedesIn (l : List Effect) (a b : Effect) : Prop :=
  l.indexOf a < l.indexOf b

/-- create_paste (lines 148-182), instrumented with its effect trace.
Validation first; then the id is drawn; the record is inserted into the
in-memory index (dict insertion appends a fresh key), the content file is
written, and the snapshot is rewritten.  The returned string is the id of
the response. -/
def create_paste_instr (maxSize : Nat) (s : Nat → String) (fuel : Nat) (now : Int)
    (st : St) (req : PasteCreate) : Except Err (St × String) × List Effect :=
  match validate maxSize req.content with
  | some e => (.error e, [])
  | none =>
    match generate_id st.pastes s 0 fuel with
    | none => (.error .genExhausted, [])
    | some pasteId =>
      let meta : Meta :=
        { title := req.title
          language := req.language
          created_at := now
          expires_at := computeExpiresAt now req.expires_in_hours
          burn_after_read := req.burn_after_read
          size := req.content.length }
      (.ok ({ pastes := st.pastes ++ [(pasteId, meta)]
              store := save_content st.store pasteId req.content }, pasteId),
       [.indexInsert pasteId, .contentWrite pasteId, .snapshotSave])

/-- create_paste: resulting state and response id. -/
def create_paste (maxSize : Nat) (s : Nat → String) (fuel : Nat) (now : Int)
    (st : St) (req : PasteCreate) : Except Err (St × String) :=
  (create_paste_instr maxSize s fuel now st req).1

/-- Effect trace of create_paste. -/
def create_effects (maxSize : Nat) (s : Nat → String) (fuel : Nat) (now : Int)
    (st : St) (req : PasteCreate) : List Effect :=
  (create_paste_instr maxSize s fuel now st req).2

/-- GET /paste_id/raw (lines 202-220): 404 when the id is not in the
index or its content file is missing; on success return the content, and
when the record is burn-after-read delete the record and the file and
rewrite the snapshot before returning. -/
def get_paste_raw (st : St) (id : String) : Except Err String × St :=
  match alookup st.pastes id with
  | none => (.error .notFound, st)
  | some meta =>
    match load_content st.store id with
    | none => (.error .notFound, st)
    | some content =>
      if meta.burn_after_read then
        (.ok content, { pastes := adel st.pastes id, store := delete_content st.store id })
      else (.ok content, st)

/-- GET /paste_id (lines 223-276): same lookup, load and burn logic as
the raw read; the Pygments highlighting and the HTML page template are
excluded collaborators, abstracted by the render parameter applied to the
content and the language hint. -/
def get_paste_html (render : String → Option String → String) (st : St)
    (id : String) : Except Err String × St :=
  match alookup st.pastes id with
  | none => (.error .notFound, st)
  | some meta =>
    match load_content st.store id with
    | none => (.error .notFound, st)
    | some content =>
      let page := render content meta.language
      if meta.burn_after_read then
        (.ok page, { pastes := adel st.pastes id, store := delete_content st.store id })
      else (.ok page, st)

/-- DELETE /api/paste/paste_id (lines 279-289): 404 when absent, else
remove the record and the content file and rewrite the snapshot. -/
def delete_paste (st : St) (id : String) : Except Err String × St :=
  match alookup st.pastes id with
  | none => (.error .notFound, st)
  | some _ =>
    (.ok id, { pastes := adel st.pastes id, store := delete_content st.store id })

/-- Python slice xs[:k]: a nonnegative k keeps the first k elements, a
negative k drops the last -k elements (stop = max(len + k, 0)). -/
def pySliceTo {α : Type} (xs : List α) (k : Int) : List α :=
  if 0 ≤ k then xs.take k.toNat else xs.take ((xs.length : Int) + k).toNat

/-- One entry of the GET /api/pastes response (lines 190-198). -/
structure Summary where
  id : String
  url : String
  title : Option String
  language : Option String
  size : Nat
  created_at : Int
  expires_at : Option Int
deriving DecidableEq, Repr

/-- list_pastes (lines 185-199): slice the index items to the limit and
build metadata summaries; the response also carries total = len(pastes).
Content is never read and the index is not mutated (the function only
consumes the index). -/
def list_pastes (baseUrl : String) (pastes : List (String × Meta)) (limit : Int) :
    List Summary × Nat :=
  ((pySliceTo pastes limit).map fun kv =>
    { id := kv.1
      url := baseUrl ++ "/" ++ kv.1
      title := kv.2.title
      language := kv.2.language
      size := kv.2.size
      created_at := kv.2.created_at
      expires_at := kv.2.expires_at },
   pastes.length)

/-- Expiry test of the startup sweep (line 49): expires_at present and
strictly before now (the stored isoformat string is never empty, so
Python truthiness is presence). -/
def isExpired (now : Int) (m : Meta) : Bool :=
  match m.expires_at with
  | some t => decide (t < now)
  | none => false

/-- load_index (lines 41-54): when the snapshot file is absent the index
keeps its prior value (empty at startup) and nothing is written; when
present, the snapshot replaces the index, every expired record is removed
and its content file unlinked, and the snapshot is rewritten exactly when
something was removed.  The boolean reports that rewrite. -/
def load_index (prior : List (String × Meta)) (now : Int)
    (snapshot : Option (List (String × Meta)))
    (store : String → Option String) : St × Bool :=
  match snapshot with
  | none => ({ pastes := prior, store := store }, false)
  | some snap =>
    let expired := (snap.filter fun kv => isExpired now kv.2).map Prod.fst
    ({ pastes := snap.filter fun kv => !isExpired now kv.2
       store := fun x => if x ∈ expired then none else store x },
     !expired.isEmpty)

/-- Invariant of section 3 of the spec: an id is in the index exactly
when its content blob exists, and index keys are unique. -/
def StInv (st : St) : Prop :=
  (∀ id, (alookup st.pastes id).isSome ↔ (st.store id).isSome) ∧
  (st.pastes.map Prod.fst).Nodup

/-- Create followed by a raw read of the returned id, as one function:
the round-trip of the spec's testable properties. -/
def roundTripRaw (maxSize : Nat) (s : Nat → String) (fuel : Nat) (now : Int)
    (st : St) (req : PasteCreate) : Option String :=
  match create_paste maxSize s fuel now st req with
  | .error _ => none
  | .ok (st', id) =>
    match get_paste_raw st' id with
    | (.ok c, _) => some c
    | (.error _, _) => none

/-! Concrete example inputs used to evaluate the operations. -/

/-- Empty service state: no pastes, no content files. -/
def exStoreEmpty : St := { pastes := [], store := fun _ => none }

/-- Plain metadata record: no title, no language, no expiry, no burn. -/
def exMeta : Meta :=
  { title := none, language := none, created_at := 0, expires_at := none,
    burn_after_read := false, size := 5 }

/-- Burn-after-read metadata record. -/
def exBurnMeta : Meta :=
  { title := none, language := none, created_at := 0, expires_at := none,
    burn_after_read := true, size := 6 }

/-- State holding one burn-after-read paste with its content file. -/
def exBurnSt : St :=
  { pastes := [("burnid77", exBurnMeta)],
    store := fun x => if x = "burnid77" then some "secret" else none }

/-- Metadata record that expired at time 5. -/
def exExpMeta : Meta :=
  { title := none, language := none, created_at := 0, expires_at := some 5,
    burn_after_read := false, size := 1 }

/-- Metadata record with no expiry. -/
def exLiveMeta : Meta :=
  { title := none, language := none, created_at := 0, expires_at := none,
    burn_after_read := false, size := 1 }

/-- Create request for the content hello, never expiring. -/
def exReq : PasteCreate := { content := "hello", expires_in_hours := none }

/-- Create request whose content holds a lone carriage return. -/
def exReqCR : PasteCreate := { content := "a\rb", expires_in_hours := none }

/-! Helper lemmas about association-list lookup, deletion and filtering. -/

theorem alookup_append_some {α : Type} (x : String) (v : α) :
    ∀ (l l' : List (String × α)), alookup l x = some v →
      alookup (l ++ l') x = some v
  | [], _ => by intro h; simp [alookup] at h
  | (k, w) :: rest, l' => by
    intro h
    rw [alookup] at h
    show alookup ((k, w) :: (rest ++ l')) x = some v
    rw [alookup]
    by_cases hk : k = x
    · rw [if_pos hk] at h ⊢; exact h
    · rw [if_neg hk] at h ⊢; exact alookup_append_some x v rest l' h

theorem alookup_append_of_none {α : Type} (x : String) :
    ∀ (l l' : List (String × α)), alookup l x = none →
      alookup (l ++ l') x = alookup l' x
  | [], _ => by intro _; rfl
  | (k, w) :: rest, l' => by
    intro h
    rw [alookup] at h
    show alookup ((k, w) :: (rest ++ l')) x = _
    rw [alookup]
    by_cases hk : k = x
    · rw [if_pos hk] at h; cases h
    · rw [if_neg hk] at h ⊢; exact alookup_append_of_none x rest l' h

theorem alookup_isSome_iff_mem {α : Type} (x : String) :
    ∀ (l : List (String × α)), (alookup l x).isSome ↔ x ∈ l.map Prod.fst
  | [] => by simp [alookup]
  | (k, v) :: rest => by
    rw [alookup]
    by_cases hk : k = x
    · simp [hk]
    · rw [if_neg hk, List.map_cons]
      simp only [List.mem_cons]
      rw [alookup_isSome_iff_mem x rest]
      constructor
      · exact Or.inr
      · rintro (h | h)
        · exact absurd h.symm hk
        · exact h

theorem alookup_eq_none_iff {α : Type} (l : List (String × α)) (x : String) :
    alookup l x = none ↔ x ∉ l.map Prod.fst := by
  rw [← alookup_isSome_iff_mem, ← Option.not_isSome_iff_eq_none]

theorem alookup_mem {α : Type} (x : String) (v : α) :
    ∀ (l : List (String × α)), alookup l x = some v → (x, v) ∈ l
  | [] => by intro h; simp [alookup] at h
  | (k, w) :: rest => by
    intro h
    rw [alookup] at h
    by_cases hk : k = x
    · rw [if_pos hk] at h
      cases h
      exact hk ▸ List.mem_cons_self _ _
    · rw [if_neg hk] at h
      exact List.mem_cons_of_mem _ (alookup_mem x v rest h)

theorem alookup_eq_some_of_mem {α : Type} (x : String) (v : α) :
    ∀ (l : List (String × α)), (l.map Prod.fst).Nodup → (x, v) ∈ l →
      alookup l x = some v
  | [] => by intro _ h; simp at h
  | (k, w) :: rest => by
    intro hnd hm
    rw [List.map_cons, List.nodup_cons] at hnd
    rcases List.mem_cons.mp hm with h | h
    · cases h
      rw [alookup, if_pos rfl]
    · rw [alookup]
      by_cases hk : k = x
      · subst hk
        exact absurd (List.mem_map_of_mem Prod.fst h) hnd.1
      · rw [if_neg hk]
        exact alookup_eq_some_of_mem x v rest hnd.2 h

theorem alookup_adel_self {α : Type} (id : String) :
    ∀ (l : List (String × α)), alookup (adel l id) id = none
  | [] => rfl
  | (k, v) :: rest => by
    rw [adel]
    by_cases hk : k = id
    · rw [if_pos hk]; exact alookup_adel_self id rest
    · rw [if_neg hk, alookup, if_neg hk]; exact alookup_adel_self id rest

theorem alookup_adel_ne {α : Type} (id x : String) (hx : x ≠ id) :
    ∀ (l : List (String × α)), alookup (adel l id) x = alookup l x
  | [] => rfl
  | (k, v) :: rest => by
    rw [adel]
    by_cases hk : k = id
    · rw [if_pos hk, alookup, if_neg (by rw [hk]; exact fun he => hx he.symm)]
      exact alookup_adel_ne id x hx rest
    · rw [if_neg hk, alookup, alookup]
      by_cases hkx : k = x
      · rw [if_pos hkx, if_pos hkx]
      · rw [if_neg hkx, if_neg hkx]; exact alookup_adel_ne id x hx rest

theorem mem_keys_adel {α : Type} (id x : String) :
    ∀ (l : List (String × α)), x ∈ (adel l id).map Prod.fst →
      x ∈ l.map Prod.fst
  | [] => by intro h; simp [adel] at h
  | (k, v) :: rest => by
    intro h
    rw [adel] at h
    by_cases hk : k = id
    · rw [if_pos hk] at h
      exact List.mem_cons_of_mem _ (mem_keys_adel id x rest h)
    · rw [if_neg hk, List.map_cons] at h
      rw [List.map_cons]
      rcases List.mem_cons.mp h with h | h
      · exact List.mem_cons.mpr (Or.inl h)
      · exact List.mem_cons.mpr (Or.inr (mem_keys_adel id x rest h))

theorem nodup_keys_adel {α : Type} (id : String) :
    ∀ (l : List (String × α)), (l.map Prod.fst).Nodup →
      ((adel l id).map Prod.fst).Nodup
  | [] => by intro _; simp [adel]
  | (k, v) :: rest => by
    intro h
    rw [List.map_cons, List.nodup_cons] at h
    rw [adel]
    by_cases hk : k = id
    · rw [if_pos hk]; exact nodup_keys_adel id rest h.2
    · rw [if_neg hk, List.map_cons, List.nodup_cons]
      exact ⟨fun hm => h.1 (mem_keys_adel id _ rest hm),
        nodup_keys_adel id rest h.2⟩

theorem alookup_filter {α : Type} (p : String × α → Bool) (x : String) :
    ∀ (l : List (String × α)), (l.map Prod.fst).Nodup →
      alookup (l.filter p) x =
        match alookup l x with
        | some v => if p (x, v) then some v else none
        | none => none
  | [] => by intro _; simp [alookup]
  | (k, v) :: rest => by
    intro hnd
    rw [List.map_cons, List.nodup_cons] at hnd
    by_cases hp : p (k, v)
    · rw [List.filter_cons_of_pos hp, alookup, alookup]
      by_cases hk : k = x
      · subst hk
        rw [if_pos rfl, if_pos rfl]
        simp [hp]
      · rw [if_neg hk, if_neg hk]
        exact alookup_filter p x rest hnd.2
    · rw [List.filter_cons_of_neg hp, alookup]
      by_cases hk : k = x
      · subst hk
        rw [if_pos rfl]
        simp only [hp]
        rw [if_neg Bool.false_ne_true, alookup_eq_none_iff]
        intro hm
        rcases List.mem_map.mp hm with ⟨a, ha, hax⟩
        have hmem : a.1 ∈ List.map Prod.fst rest :=
          List.mem_map_of_mem Prod.fst (List.mem_of_mem_filter ha)
        rw [hax] at hmem
        exact hnd.1 hmem
      · rw [if_neg hk]
        exact alookup_filter p x rest hnd.2

/-! Lemmas about the text-mode translation and Python strip. -/

theorem univNewlineL_no_cr :
    ∀ (l : List Char), (∀ c ∈ l, c ≠ '\r') → univNewlineL l = l
  | [], _ => rfl
  | [c], h => by
    rw [univNewlineL, if_neg (h c (List.mem_singleton_self c))]
  | c :: d :: rest, h => by
    have hc : c ≠ '\r' := h c (by simp)
    rw [univNewlineL, if_neg hc,
      univNewlineL_no_cr (d :: rest) (fun x hx => h x (List.mem_cons_of_mem c hx))]

theorem univNewline_no_cr (s : String) (h : ∀ c ∈ s.data, c ≠ '\r') :
    univNewline s = s := by
  show String.mk (univNewlineL s.data) = s
  rw [univNewlineL_no_cr s.data h]

theorem pyStripL_eq_nil_iff (l : List Char) :
    pyStripL l = [] ↔ ∀ c ∈ l, pyIsSpace c := by
  unfold pyStripL
  rw [List.reverse_eq_nil_iff, List.dropWhile_eq_nil_iff]
  constructor
  · intro h c hc
    rw [← List.takeWhile_append_dropWhile (p := pyIsSpace) (l := l)] at hc
    rcases List.mem_append.mp hc with hc | hc
    · exact List.mem_takeWhile_imp hc
    · exact h c (List.mem_reverse.mpr hc)
  · intro h c hc
    exact h c ((List.dropWhile_sublist pyIsSpace).subset (List.mem_reverse.mp hc))

theorem pyStrip_eq_empty_iff (s : String) :
    pyStrip s = "" ↔ s.data.all pyIsSpace := by
  constructor
  · intro h
    have hd : pyStripL s.data = [] := congrArg String.data h
    exact List.all_eq_true.mpr ((pyStripL_eq_nil_iff s.data).mp hd)
  · intro h
    show String.mk (pyStripL s.data) = ""
    rw [(pyStripL_eq_nil_iff s.data).mpr (List.all_eq_true.mp h)]

/-! Lemmas about the id generator. -/

theorem generate_id_fresh (pastes : List (String × Meta)) (s : Nat → String) :
    ∀ (n fuel : Nat) (id : String),
      generate_id pastes s n fuel = some id → alookup pastes id = none
  | _, 0, _ => by intro h; simp [generate_id] at h
  | n, fuel + 1, id => by
    intro h
    rw [generate_id] at h
    by_cases hs : (alookup pastes (s n)).isSome
    · rw [if_pos hs] at h
      exact generate_id_fresh pastes s (n + 1) fuel id h
    · rw [if_neg hs] at h
      cases h
      exact Option.not_isSome_iff_eq_none.mp hs

theorem generate_id_reach (pastes : List (String × Meta)) (s : Nat → String) :
    ∀ (d m : Nat), alookup pastes (s (m + d)) = none →
      ∃ id, generate_id pastes s m (d + 1) = some id ∧ alookup pastes id = none
  | 0, m => by
    intro h
    have h0 : alookup pastes (s m) = none := by simpa using h
    refine ⟨s m, ?_, h0⟩
    rw [generate_id, if_neg (by simp [h0])]
  | d + 1, m => by
    intro h
    by_cases hs : (alookup pastes (s m)).isSome
    · have h' : alookup pastes (s ((m + 1) + d)) = none := by
        have he : (m + 1) + d = m + (d + 1) := by omega
        rw [he]; exact h
      obtain ⟨id, hid, hfree⟩ := generate_id_reach pastes s d (m + 1) h'
      exact ⟨id, by rw [generate_id, if_pos hs]; exact hid, hfree⟩
    · exact ⟨s m, by rw [generate_id, if_neg hs],
        Option.not_isSome_iff_eq_none.mp hs⟩

/-! Lemmas relating a successful create to its ingredients. -/

theorem create_paste_ok (maxSize : Nat) (s : Nat → String) (fuel : Nat)
    (now : Int) (st : St) (req : PasteCreate) (st' : St) (id : String)
    (h : create_paste maxSize s fuel now st req = .ok (st', id)) :
    validate maxSize req.content = none ∧
    generate_id st.pastes s 0 fuel = some id ∧
    st' = { pastes := st.pastes ++
              [(id, { title := req.title
                      language := req.language
                      created_at := now
                      expires_at := computeExpiresAt now req.expires_in_hours
                      burn_after_read := req.burn_after_read
                      size := req.content.length })]
            store := save_content st.store id req.content } := by
  unfold create_paste create_paste_instr at h
  rcases hv : validate maxSize req.content with _ | e
  · rw [hv] at h
    rcases hg : generate_id st.pastes s 0 fuel with _ | gid
    · rw [hg] at h; cases h
    · rw [hg] at h
      simp only [Except.ok.injEq, Prod.mk.injEq] at h
      obtain ⟨hst, hid⟩ := h
      subst hid
      exact ⟨rfl, rfl, hst.symm⟩
  · rw [hv] at h; cases h

/-! Invariant preservation helpers. -/

theorem stinv_insert (st : St) (id : String) (meta : Meta) (content : String)
    (hfresh : alookup st.pastes id = none) (h : StInv st) :
    StInv { pastes := st.pastes ++ [(id, meta)],
            store := save_content st.store id content } := by
  constructor
  · intro x
    show (alookup (st.pastes ++ [(id, meta)]) x).isSome ↔
      (save_content st.store id content x).isSome
    by_cases hx : x = id
    · subst hx
      rw [alookup_append_of_none x st.pastes _ hfresh]
      simp [alookup, save_content]
    · rcases hax : alookup st.pastes x with _ | v
      · rw [alookup_append_of_none x st.pastes _ hax]
        have hsx := h.1 x
        rw [hax] at hsx
        have hstx : st.store x = none := by
          rcases hsv : st.store x with _ | w
          · rfl
          · rw [hsv] at hsx
            simp at hsx
        have hone : alookup [(id, meta)] x = none := by
          show (if id = x then some meta else alookup ([] : List (String × Meta)) x)
            = none
          rw [if_neg (fun he => hx he.symm)]
          rfl
        rw [hone]
        unfold save_content
        rw [if_neg hx, hstx]
        exact Iff.rfl
      · rw [alookup_append_some x v st.pastes _ hax]
        have hsx := h.1 x
        rw [hax] at hsx
        unfold save_content
        rw [if_neg hx]
        exact hsx
  · show ((st.pastes ++ [(id, meta)]).map Prod.fst).Nodup
    rw [List.map_append]
    refine List.Nodup.append h.2 (List.nodup_singleton id) ?_
    intro a ha hb
    rw [List.map_singleton, List.mem_singleton] at hb
    subst hb
    exact (alookup_eq_none_iff st.pastes a).mp hfresh ha

theorem stinv_remove (st : St) (id : String) (h : StInv st) :
    StInv { pastes := adel st.pastes id, store := delete_content st.store id } := by
  constructor
  · intro x
    show (alookup (adel st.pastes id) x).isSome ↔ (delete_content st.store id x).isSome
    by_cases hx : x = id
    · subst hx
      rw [alookup_adel_self x st.pastes]
      simp [delete_content]
    · rw [alookup_adel_ne id x hx st.pastes]
      unfold delete_content
      rw [if_neg hx]
      exact h.1 x
  · exact nodup_keys_adel id st.pastes h.2

theorem stinv_load (prior snap : List (String × Meta)) (now : Int)
    (store : String → Option String)
    (hiff : ∀ x, (alookup snap x).isSome ↔ (store x).isSome)
    (hnodup : (snap.map Prod.fst).Nodup) :
    StInv (load_index prior now (some snap) store).1 := by
  simp only [load_index]
  constructor
  · intro x
    show (alookup (snap.filter fun kv => !isExpired now kv.2) x).isSome ↔
      (if x ∈ (snap.filter fun kv => isExpired now kv.2).map Prod.fst
        then none else store x).isSome
    have hfl := alookup_filter (fun kv => !isExpired now kv.2) x snap hnodup
    rcases hax : alookup snap x with _ | m
    · rw [hax] at hfl
      rw [hfl]
      have hsx := hiff x
      rw [hax] at hsx
      by_cases hxe : x ∈ (snap.filter fun kv => isExpired now kv.2).map Prod.fst
      · simp [hxe]
      · rw [if_neg hxe]
        simpa using hsx.symm
    · rw [hax] at hfl
      rw [hfl]
      have hxe_iff : (x ∈ (snap.filter fun kv => isExpired now kv.2).map Prod.fst)
          ↔ isExpired now m = true := by
        constructor
        · intro hxe
          obtain ⟨kv, hkv, hfst⟩ := List.mem_map.mp hxe
          obtain ⟨hkvmem, hkvexp⟩ := List.mem_filter.mp hkv
          have hlook : alookup snap kv.1 = some kv.2 :=
            alookup_eq_some_of_mem kv.1 kv.2 snap hnodup hkvmem
          rw [hfst, hax] at hlook
          cases hlook
          exact hkvexp
        · intro hm
          exact List.mem_map.mpr ⟨(x, m),
            List.mem_filter.mpr ⟨alookup_mem x m snap hax, hm⟩, rfl⟩
      by_cases hm : isExpired now m = true
      · rw [if_pos (hxe_iff.mpr hm)]
        simp [hm]
      · have hmf : isExpired now m = false := Bool.eq_false_iff.mpr hm
        rw [if_neg (fun hxe => hm (hxe_iff.mp hxe))]
        have hsx := hiff x
        rw [hax] at hsx
        simp only [hmf]
        simpa using hsx
  · show (((snap.filter fun kv => !isExpired now kv.2)).map Prod.fst).Nodup
    exact ((List.filter_sublist snap).map Prod.fst).nodup hnodup

theorem get_paste_raw_found (st : St) (id : String) (m : Meta) (c : String)
    (h1 : alookup st.pastes id = some m) (h2 : st.store id = some c) :
    (get_paste_raw st id).1 = .ok (univNewline c) := by
  have h3 : load_content st.store id = some (univNewline c) := by
    unfold load_content
    rw [h2]
    rfl
  unfold get_paste_raw
  simp only [h1, h3]
  cases hb : m.burn_after_read <;> simp [hb]

/-! Claim theorems. -/

/-- C3 counterexample: the source checks len(data.content), a character
count, not the byte length.  With a configured maximum of 1 byte, a
one-character two-byte content passes validation although its byte length
exceeds the maximum, so create does not fail with ContentTooLarge where
the claim requires it to. -/
theorem validate_counts_chars_not_bytes :
    1 < "é".utf8ByteSize ∧ "é".length = 1 ∧ validate 1 "é" = none := by
  refine ⟨by decide, by decide, ?_⟩
  rfl

/-- C3 (amended): create fails with ContentTooLarge exactly when the
character count (Python len) of the content exceeds the configured
maximum; it fails with EmptyContent exactly when the character count is
within the maximum and the content is empty or all whitespace; otherwise
validation passes. -/
theorem validate_characterization (maxSize : Nat) (content : String) :
    (validate maxSize content = some .tooLarge ↔ maxSize < content.length) ∧
    (validate maxSize content = some .emptyContent ↔
      content.length ≤ maxSize ∧ content.data.all pyIsSpace = true) ∧
    (validate maxSize content = none ↔
      content.length ≤ maxSize ∧ content.data.all pyIsSpace = false) := by
  unfold validate
  by_cases h1 : content.length > maxSize
  · rw [if_pos h1]
    refine ⟨by simp [h1], ?_, ?_⟩
    · simp [show ¬(content.length ≤ maxSize) from by omega]
    · simp [show ¬(content.length ≤ maxSize) from by omega]
  · rw [if_neg h1]
    have hle : content.length ≤ maxSize := by omega
    by_cases h2 : pyStrip content = ""
    · rw [if_pos h2]
      have hws : content.data.all pyIsSpace = true :=
        (pyStrip_eq_empty_iff content).mp h2
      refine ⟨by simp [show ¬(maxSize < content.length) from by omega], ?_, ?_⟩
      · simp [hle, hws]
      · simp [hws]
    · rw [if_neg h2]
      have hws : content.data.all pyIsSpace = false :=
        Bool.eq_false_iff.mpr fun hh => h2 ((pyStrip_eq_empty_iff content).mpr hh)
      refine ⟨by simp [show ¬(maxSize < content.length) from by omega], ?_, ?_⟩
      · simp [hws]
      · simp [hle, hws]

/-- C10: when the content both exceeds the configured maximum and is
empty or all whitespace, create answers ContentTooLarge and never
EmptyContent, because the size check runs before the emptiness check. -/
theorem size_check_precedes_empty_check (maxSize : Nat) (content : String)
    (hlen : maxSize < content.length)
    (hws : content.data.all pyIsSpace = true) :
    validate maxSize content = some .tooLarge ∧
    validate maxSize content ≠ some .emptyContent := by
  unfold validate
  rw [if_pos (by omega : content.length > maxSize)]
  exact ⟨rfl, by simp⟩

/-- C10 witness: a three-space content against a maximum of one. -/
theorem size_check_precedes_empty_check_witness :
    validate 1 "   " = some .tooLarge ∧ validate 1 "   " ≠ some .emptyContent :=
  size_check_precedes_empty_check 1 "   " (by decide) (by decide)

/-- C9: for every record created, expires_at is present exactly when the
effective expires_in_hours (after the pydantic default) is positive, in
which case it equals created_at plus that many hours; whenever present it
is strictly after created_at.  The last part ties this to create: the
record inserted for the returned id carries created_at = now and
expires_at = computeExpiresAt now expires_in_hours. -/
theorem expires_at_specification (now : Int) (eh : Option Int) :
    ((computeExpiresAt now eh).isSome ↔ ∃ v, eh = some v ∧ 0 < v) ∧
    (∀ v, eh = some v → 0 < v →
      computeExpiresAt now eh = some (now + v * 3600)) ∧
    (∀ t, computeExpiresAt now eh = some t → now < t) ∧
    (∀ (maxSize : Nat) (s : Nat → String) (fuel : Nat) (st : St)
       (req : PasteCreate) (st' : St) (id : String),
       create_paste maxSize s fuel now st req = .ok (st', id) →
       alookup st'.pastes id = some
         { title := req.title
           language := req.language
           created_at := now
           expires_at := computeExpiresAt now req.expires_in_hours
           burn_after_read := req.burn_after_read
           size := req.content.length }) := by
  refine ⟨?_, ?_, ?_, ?_⟩
  · rcases eh with _ | v
    · simp [computeExpiresAt]
    · by_cases hv : 0 < v
      · simp [computeExpiresAt, hv]
      · simp [computeExpiresAt, hv]
  · intro v hv hpos
    subst hv
    simp [computeExpiresAt, hpos]
  · intro t ht
    rcases eh with _ | v
    · simp [computeExpiresAt] at ht
    · by_cases hv : 0 < v
      · rw [computeExpiresAt] at ht
        rw [if_pos hv] at ht
        cases ht
        omega
      · rw [computeExpiresAt] at ht
        rw [if_neg hv] at ht
        cases ht
  · intro maxSize s fuel st req st' id hc
    obtain ⟨hv, hg, hst⟩ := create_paste_ok maxSize s fuel now st req st' id hc
    have hfresh := generate_id_fresh st.pastes s 0 fuel id hg
    rw [hst]
    show alookup (st.pastes ++ [(id, _)]) id = _
    rw [alookup_append_of_none id st.pastes _ hfresh]
    simp [alookup]

/-- C9 witness: creating at time 100 with two hours of life yields an
expiry of 7300, strictly after 100. -/
theorem expires_at_specification_witness :
    computeExpiresAt 100 (some 2) = some 7300 ∧ (100 : Int) < 7300 := by
  have h2 := (expires_at_specification 100 (some 2)).2.1 2 rfl (by norm_num)
  exact ⟨by simpa using h2, (expires_at_specification 100 (some 2)).2.2.1 7300
    (by simpa using h2)⟩

/-- C8 counterexample: list_pastes slices with Python semantics, so a
negative limit does not bound the result: with two stored pastes and
limit -1 the listing returns one summary, yet no count of summaries can
be at most -1. -/
theorem list_pastes_negative_limit :
    (list_pastes "http://localhost:8084"
      [("aaaaaaaa", exMeta), ("bbbbbbbb", exMeta)] (-1)).1.length = 1 ∧
    ¬((1 : Int) ≤ -1) := by
  exact ⟨rfl, by decide⟩

/-- C8 (amended): for every nonnegative limit, list_pastes returns at
most limit summaries, their ids are the first entries of the index in
insertion order, and the reported total is the index size; the listing is
a pure function of the index (it never reads content and returns no new
state).  A negative limit instead drops entries from the end of the
index, Python slice style. -/
theorem list_pastes_bounded_in_order (baseUrl : String)
    (pastes : List (String × Meta)) (limit : Int) (h : 0 ≤ limit) :
    (list_pastes baseUrl pastes limit).1.length ≤ limit.toNat ∧
    (list_pastes baseUrl pastes limit).1.map Summary.id =
      (pastes.map Prod.fst).take limit.toNat ∧
    (list_pastes baseUrl pastes limit).2 = pastes.length := by
  unfold list_pastes pySliceTo
  rw [if_pos h]
  refine ⟨?_, ?_, rfl⟩
  · simp only [List.length_map]
    exact List.length_take_le _ _
  · rw [List.map_map, ← List.map_take]
    rfl

/-- C8 witness: limit 1 over a two-entry index. -/
theorem list_pastes_bounded_in_order_witness :
    (list_pastes "u" [("aaaaaaaa", exMeta), ("bbbbbbbb", exMeta)] 1).1.length ≤
      (1 : Int).toNat ∧
    (list_pastes "u" [("aaaaaaaa", exMeta), ("bbbbbbbb", exMeta)] 1).1.map
        Summary.id =
      ([("aaaaaaaa", exMeta), ("bbbbbbbb", exMeta)].map Prod.fst).take
        (1 : Int).toNat ∧
    (list_pastes "u" [("aaaaaaaa", exMeta), ("bbbbbbbb", exMeta)] 1).2 =
      [("aaaaaaaa", exMeta), ("bbbbbbbb", exMeta)].length :=
  list_pastes_bounded_in_order "u" [("aaaaaaaa", exMeta), ("bbbbbbbb", exMeta)]
    1 (by decide)

/-- C2 counterexample: the content store writes with write_text and reads
with read_text, whose universal-newline decoding turns the lone carriage
return of the stored text into a line feed; the create-then-read(raw)
round-trip of a valid content holding a carriage return therefore returns
different bytes than were submitted. -/
theorem roundtrip_loses_carriage_returns :
    roundTripRaw 100 (fun _ => "aaaaaaaa") 1 0 exStoreEmpty exReqCR =
      some "a\nb" ∧
    ("a\nb" : String) ≠ "a\rb" ∧ exReqCR.content = "a\rb" :=
  ⟨rfl, by decide, rfl⟩

/-- C2 (amended): for every accepted create, an immediate raw read of the
returned id yields the submitted content passed through universal-newline
decoding; it is byte-identical to the submission exactly when the content
contains no carriage return. -/
theorem create_then_read_raw_roundtrip (maxSize : Nat) (s : Nat → String)
    (fuel : Nat) (now : Int) (st : St) (req : PasteCreate) (st' : St)
    (id : String)
    (hc : create_paste maxSize s fuel now st req = .ok (st', id)) :
    (get_paste_raw st' id).1 = .ok (univNewline req.content) ∧
    ((∀ c ∈ req.content.data, c ≠ '\r') →
      (get_paste_raw st' id).1 = .ok req.content) := by
  obtain ⟨hv, hg, hst⟩ := create_paste_ok maxSize s fuel now st req st' id hc
  have hfresh := generate_id_fresh st.pastes s 0 fuel id hg
  have h1 : alookup st'.pastes id = some
      { title := req.title
        language := req.language
        created_at := now
        expires_at := computeExpiresAt now req.expires_in_hours
        burn_after_read := req.burn_after_read
        size := req.content.length } := by
    rw [hst]
    show alookup (st.pastes ++ [(id, _)]) id = _
    rw [alookup_append_of_none id st.pastes _ hfresh]
    simp [alookup]
  have h2 : st'.store id = some req.content := by
    rw [hst]
    show save_content st.store id req.content id = _
    unfold save_content
    rw [if_pos rfl]
  have hmain := get_paste_raw_found st' id _ req.content h1 h2
  exact ⟨hmain, fun hcr => by rw [hmain, univNewline_no_cr req.content hcr]⟩

/-- C2 witness: a carriage-return-free content round-trips unchanged. -/
theorem create_then_read_raw_roundtrip_witness :
    (get_paste_raw
      { pastes := [("aaaaaaaa",
          { title := none, language := none, created_at := 0,
            expires_at := none, burn_after_read := false, size := 5 })]
        store := save_content (fun _ => none) "aaaaaaaa" "hello" } "aaaaaaaa").1 =
      .ok "hello" := by
  have h := create_then_read_raw_roundtrip 100 (fun _ => "aaaaaaaa") 1 0
    exStoreEmpty exReq
    { pastes := [("aaaaaaaa",
        { title := none, language := none, created_at := 0,
          expires_at := none, burn_after_read := false, size := 5 })]
      store := save_content (fun _ => none) "aaaaaaaa" "hello" } "aaaaaaaa" rfl
  exact h.2 (by decide)

/-- C1: for a burn-after-read paste present with its content, the first
successful read (raw or rendered) returns the content and, in the same
step that produces the response, leaves a state in which the record and
the content blob are gone; any subsequent read of the id answers
NotFound. -/
theorem burn_after_read_consumed_once (st : St) (id : String) (m : Meta)
    (c : String) (h1 : alookup st.pastes id = some m)
    (h2 : m.burn_after_read = true) (h3 : st.store id = some c) :
    (get_paste_raw st id =
      (.ok (univNewline c),
       { pastes := adel st.pastes id, store := delete_content st.store id })) ∧
    alookup (adel st.pastes id) id = none ∧
    delete_content st.store id id = none ∧
    (get_paste_raw
        { pastes := adel st.pastes id, store := delete_content st.store id }
        id =
      (.error .notFound,
       { pastes := adel st.pastes id, store := delete_content st.store id })) ∧
    (∀ render, get_paste_html render
        { pastes := adel st.pastes id, store := delete_content st.store id } id =
      (.error .notFound,
       { pastes := adel st.pastes id, store := delete_content st.store id })) ∧
    (∀ render, get_paste_html render st id =
      (.ok (render (univNewline c) m.language),
       { pastes := adel st.pastes id, store := delete_content st.store id })) := by
  have h3' : load_content st.store id = some (univNewline c) := by
    unfold load_content
    rw [h3]
    rfl
  have hgone : alookup (adel st.pastes id) id = none :=
    alookup_adel_self id st.pastes
  refine ⟨?_, hgone, ?_, ?_, ?_, ?_⟩
  · unfold get_paste_raw
    simp only [h1, h3', h2, if_true]
  · unfold delete_content
    rw [if_pos rfl]
  · unfold get_paste_raw
    simp only [hgone]
  · intro render
    unfold get_paste_html
    simp only [hgone]
  · intro render
    unfold get_paste_html
    simp only [h1, h3', h2, if_true]

/-- C1 witness: one burn-after-read paste holding the content secret. -/
theorem burn_after_read_consumed_once_witness :
    (get_paste_raw exBurnSt "burnid77" =
      (.ok (univNewline "secret"),
       { pastes := adel exBurnSt.pastes "burnid77"
         store := delete_content exBurnSt.store "burnid77" })) ∧
    alookup (adel exBurnSt.pastes "burnid77") "burnid77" = none ∧
    delete_content exBurnSt.store "burnid77" "burnid77" = none ∧
    (get_paste_raw
        { pastes := adel exBurnSt.pastes "burnid77",
          store := delete_content exBurnSt.store "burnid77" }
        "burnid77" =
      (.error .notFound,
       { pastes := adel exBurnSt.pastes "burnid77"
         store := delete_content exBurnSt.store "burnid77" })) ∧
    (∀ render, get_paste_html render
        { pastes := adel exBurnSt.pastes "burnid77"
          store := delete_content exBurnSt.store "burnid77" } "burnid77" =
      (.error .notFound,
       { pastes := adel exBurnSt.pastes "burnid77"
         store := delete_content exBurnSt.store "burnid77" })) ∧
    (∀ render, get_paste_html render exBurnSt "burnid77" =
      (.ok (render (univNewline "secret") exBurnMeta.language),
       { pastes := adel exBurnSt.pastes "burnid77"
         store := delete_content exBurnSt.store "burnid77" })) :=
  burn_after_read_consumed_once exBurnSt "burnid77" exBurnMeta "secret"
    rfl rfl rfl

/-- C4 counterexample: in a successful create the effect trace is index
insert, then content write, then snapshot save, so the content write does
not precede the moment the in-memory index records the id as live — the
order the claim requires never holds. -/
theorem create_writes_content_after_index_insert :
    create_effects 100 (fun _ => "aaaaaaaa") 1 0 exStoreEmpty exReq =
      [.indexInsert "aaaaaaaa", .contentWrite "aaaaaaaa", .snapshotSave] ∧
    ¬ precedesIn
        [.indexInsert "aaaaaaaa", .contentWrite "aaaaaaaa", .snapshotSave]
        (.contentWrite "aaaaaaaa") (.indexInsert "aaaaaaaa") := by
  refine ⟨rfl, ?_⟩
  unfold precedesIn
  decide

/-- C4 (amended): every successful create performs, in order, the
in-memory index insert of the new id, then the durable content write,
then the snapshot rewrite: the content is durably written before the
snapshot records the id, but the in-memory index (which readers consult)
records the id before the content file exists. -/
theorem create_effect_order (maxSize : Nat) (s : Nat → String) (fuel : Nat)
    (now : Int) (st : St) (req : PasteCreate) (id : String)
    (hv : validate maxSize req.content = none)
    (hg : generate_id st.pastes s 0 fuel = some id) :
    create_effects maxSize s fuel now st req =
      [.indexInsert id, .contentWrite id, .snapshotSave] := by
  unfold create_effects create_paste_instr
  rw [hv, hg]

/-- C4 witness: the trace of a concrete successful create. -/
theorem create_effect_order_witness :
    create_effects 100 (fun _ => "bbbbbbbb") 1 0 exStoreEmpty exReq =
      [.indexInsert "bbbbbbbb", .contentWrite "bbbbbbbb", .snapshotSave] :=
  create_effect_order 100 (fun _ => "bbbbbbbb") 1 0 exStoreEmpty exReq
    "bbbbbbbb" rfl rfl

/-- C6: every id the generator returns is absent from the index at the
moment of generation (so the id returned by create is unique among live
ids), and the retry loop reaches a free id whenever the candidate stream
can produce every fixed-length id over the alphabet and the index does
not already contain them all. -/
theorem generate_id_fresh_and_total :
    (∀ (pastes : List (String × Meta)) (s : Nat → String) (n fuel : Nat)
       (id : String),
       generate_id pastes s n fuel = some id → alookup pastes id = none) ∧
    (∀ (len : Nat) (pastes : List (String × Meta)) (s : Nat → String),
       (∀ id ∈ allIds len, ∃ n, s n = id) →
       (∃ id ∈ allIds len, alookup pastes id = none) →
       ∃ fuel id, generate_id pastes s 0 fuel = some id ∧
         alookup pastes id = none) ∧
    (∀ (maxSize : Nat) (s : Nat → String) (fuel : Nat) (now : Int) (st : St)
       (req : PasteCreate) (st' : St) (id : String),
       create_paste maxSize s fuel now st req = .ok (st', id) →
       alookup st.pastes id = none) := by
  refine ⟨fun pastes s => generate_id_fresh pastes s, ?_, ?_⟩
  · intro len pastes s hsur hfree
    obtain ⟨id0, hid0mem, hid0free⟩ := hfree
    obtain ⟨n, hn⟩ := hsur id0 hid0mem
    have h0 : alookup pastes (s (0 + n)) = none := by
      rw [Nat.zero_add, hn]
      exact hid0free
    obtain ⟨id, hid, hfree'⟩ := generate_id_reach pastes s n 0 h0
    exact ⟨n + 1, id, hid, hfree'⟩
  · intro maxSize s fuel now st req st' id hc
    obtain ⟨hv, hg, hst⟩ := create_paste_ok maxSize s fuel now st req st' id hc
    exact generate_id_fresh st.pastes s 0 fuel id hg

/-- C6 witness: with length zero the id space is the empty string alone;
a constant stream covers it and the empty index leaves it free. -/
theorem generate_id_fresh_and_total_witness :
    ∃ fuel id, generate_id ([] : List (String × Meta)) (fun _ => "") 0 fuel =
      some id ∧ alookup ([] : List (String × Meta)) id = none := by
  apply generate_id_fresh_and_total.2.1 0 [] (fun _ => "")
  · intro id hid
    simp [allIds] at hid
    exact ⟨0, hid.symm⟩
  · exact ⟨"", by simp [allIds], rfl⟩

/-- C7: load_index reads the snapshot when present, keeps exactly the
records that are not expired (expires_at present and strictly before
now), deletes the content blobs of the removed records and no others,
rewrites the snapshot exactly when something was removed, and leaves no
expired record; when the snapshot is absent nothing changes and nothing
is written. -/
theorem load_index_sweep (prior : List (String × Meta)) (now : Int)
    (snap : List (String × Meta)) (store : String → Option String) :
    ((load_index prior now (some snap) store).1.pastes =
      snap.filter fun kv => !isExpired now kv.2) ∧
    (∀ k m, (k, m) ∈ snap → isExpired now m = true →
      (load_index prior now (some snap) store).1.store k = none) ∧
    (∀ x, (∀ m, (x, m) ∈ snap → isExpired now m = false) →
      (load_index prior now (some snap) store).1.store x = store x) ∧
    ((load_index prior now (some snap) store).2 = true ↔
      ∃ kv ∈ snap, isExpired now kv.2 = true) ∧
    (∀ k m, (k, m) ∈ (load_index prior now (some snap) store).1.pastes →
      isExpired now m = false) ∧
    ((load_index prior now none store).1.pastes = prior ∧
     (load_index prior now none store).1.store = store ∧
     (load_index prior now none store).2 = false) := by
  simp only [load_index]
  refine ⟨by trivial, ?_, ?_, ?_, ?_, by trivial, by trivial, by trivial⟩
  · intro k m hm he
    show (if k ∈ (snap.filter fun kv => isExpired now kv.2).map Prod.fst
      then none else store k) = none
    rw [if_pos (List.mem_map.mpr ⟨(k, m), List.mem_filter.mpr ⟨hm, he⟩, rfl⟩)]
  · intro x hx
    show (if x ∈ (snap.filter fun kv => isExpired now kv.2).map Prod.fst
      then none else store x) = store x
    rw [if_neg ?hne]
    case hne =>
      intro hmem
      obtain ⟨kv, hkv, hfst⟩ := List.mem_map.mp hmem
      obtain ⟨hkvmem, hkvexp⟩ := List.mem_filter.mp hkv
      subst hfst
      rw [hx kv.2 hkvmem] at hkvexp
      cases hkvexp
  · show (!(((snap.filter fun kv => isExpired now kv.2).map Prod.fst).isEmpty))
        = true ↔ _
    rw [Bool.not_eq_eq_eq_not]
    show ((snap.filter fun kv => isExpired now kv.2).map Prod.fst).isEmpty
        = false ↔ _
    rw [List.isEmpty_eq_false_iff_exists_mem]
    constructor
    · rintro ⟨x, hx⟩
      obtain ⟨kv, hkv, _⟩ := List.mem_map.mp hx
      obtain ⟨hkvmem, hkvexp⟩ := List.mem_filter.mp hkv
      exact ⟨kv, hkvmem, hkvexp⟩
    · rintro ⟨kv, hkvmem, hkvexp⟩
      exact ⟨kv.1, List.mem_map.mpr ⟨kv, List.mem_filter.mpr ⟨hkvmem, hkvexp⟩,
        rfl⟩⟩
  · intro k m hm
    obtain ⟨_, hp⟩ := List.mem_filter.mp hm
    simpa using hp

/-- C7 witness: at time 10, a snapshot with one record expired at 5 and
one never-expiring record loses exactly the expired blob and rewrites the
snapshot. -/
theorem load_index_sweep_witness :
    (load_index [] 10 (some [("aaaaaaaa", exExpMeta), ("bbbbbbbb", exLiveMeta)])
      (fun _ => some "x")).1.store "aaaaaaaa" = none ∧
    (load_index [] 10 (some [("aaaaaaaa", exExpMeta), ("bbbbbbbb", exLiveMeta)])
      (fun _ => some "x")).2 = true := by
  have h := load_index_sweep [] 10
    [("aaaaaaaa", exExpMeta), ("bbbbbbbb", exLiveMeta)] (fun _ => some "x")
  refine ⟨h.2.1 "aaaaaaaa" exExpMeta (by simp) rfl, ?_⟩
  exact h.2.2.2.1.mpr ⟨("aaaaaaaa", exExpMeta), by simp, rfl⟩

/-- C5: after every completed operation — a successful create, a raw or
rendered read (including a burn deletion), a delete, and the startup load
sweep — an id is present in the index exactly when its content blob
exists, and index keys stay unique; for the sweep the same consistency of
the snapshot with the store is assumed on entry. -/
theorem index_blob_invariant :
    (∀ (maxSize : Nat) (s : Nat → String) (fuel : Nat) (now : Int) (st : St)
       (req : PasteCreate) (st' : St) (id : String),
       create_paste maxSize s fuel now st req = .ok (st', id) →
       StInv st → StInv st') ∧
    (∀ (st : St) (id : String), StInv st → StInv (get_paste_raw st id).2) ∧
    (∀ (render : String → Option String → String) (st : St) (id : String),
       StInv st → StInv (get_paste_html render st id).2) ∧
    (∀ (st : St) (id : String), StInv st → StInv (delete_paste st id).2) ∧
    (∀ (prior : List (String × Meta)) (now : Int)
       (store : String → Option String),
       StInv { pastes := prior, store := store } →
       StInv (load_index prior now none store).1) ∧
    (∀ (prior snap : List (String × Meta)) (now : Int)
       (store : String → Option String),
       (∀ x, (alookup snap x).isSome ↔ (store x).isSome) →
       (snap.map Prod.fst).Nodup →
       StInv (load_index prior now (some snap) store).1) := by
  refine ⟨?_, ?_, ?_, ?_, ?_, ?_⟩
  · intro maxSize s fuel now st req st' id hc h
    obtain ⟨hv, hg, hst⟩ := create_paste_ok maxSize s fuel now st req st' id hc
    rw [hst]
    exact stinv_insert st id _ req.content
      (generate_id_fresh st.pastes s 0 fuel id hg) h
  · intro st id h
    unfold get_paste_raw
    rcases h1 : alookup st.pastes id with _ | m
    · exact h
    · rcases h2 : load_content st.store id with _ | c
      · exact h
      · cases hb : m.burn_after_read
        · simpa [hb] using h
        · simpa [hb] using stinv_remove st id h
  · intro render st id h
    unfold get_paste_html
    rcases h1 : alookup st.pastes id with _ | m
    · exact h
    · rcases h2 : load_content st.store id with _ | c
      · exact h
      · cases hb : m.burn_after_read
        · simpa [hb] using h
        · simpa [hb] using stinv_remove st id h
  · intro st id h
    unfold delete_paste
    rcases h1 : alookup st.pastes id with _ | m
    · exact h
    · exact stinv_remove st id h
  · intro prior now store h
    exact h
  · intro prior snap now store hiff hnodup
    exact stinv_load prior snap now store hiff hnodup

/-- C5 witness: the invariant holds for the state produced by a concrete
successful create on the empty state. -/
theorem index_blob_invariant_witness :
    StInv
      { pastes := [("aaaaaaaa",
          { title := none, language := none, created_at := 0,
            expires_at := none, burn_after_read := false, size := 5 })]
        store := save_content (fun _ => none) "aaaaaaaa" "hello" } :=
  index_blob_invariant.1 100 (fun _ => "aaaaaaaa") 1 0 exStoreEmpty exReq
    { pastes := [("aaaaaaaa",
        { title := none, language := none, created_at := 0,
          expires_at := none, burn_after_read := false, size := 5 })]
      store := save_content (fun _ => none) "aaaaaaaa" "hello" } "aaaaaaaa" rfl
    ⟨fun x => by simp [exStoreEmpty, alookup], by simp [exStoreEmpty]⟩
